import Mathlib

/-!
Verification development for the crime-anniversaries scraper
(src/crime_anniversaries.py).

The script fetches crime-related events from two sources (the Wikidata
SPARQL endpoint and the Wikipedia OnThisDay feed), normalizes each source
into a shared flat list of rows plus a date-label-grouped accumulator, and
exports a CSV table and a grouped JSON object.

Shallow embedding conventions:
  - Python dict rows become Lean structures; a key whose absence can be
    observed becomes an Option field.
  - Python exceptions are modelled with the Except monad: Except.error is a
    raised exception; a try/except block is a pattern match on the result.
  - Machine text is modelled with Lean String (a structure over List Char in
    this toolchain); helpers that the Python code performs with str methods
    are re-implemented over the character list so that they are executable
    by the kernel.  Case-insensitivity and word characters are modelled at
    ASCII level, which covers the fixed ASCII keyword set of the script.
  - Floating point coordinate values are carried opaquely as strings; no
    claim depends on their numeric content.
-/

namespace CrimeAnniv

/-! ## 1. Settings (module constants of the script) -/

/-- YEAR_CUTOFF = 1900.  Python ints are unbounded, so event years are
modelled as Int. -/
def YEAR_CUTOFF : Int := 1900

/-- MAX_PAGES = 5: maximum number of leading pages scanned per event. -/
def MAX_PAGES : Nat := 5

/-! ## 2. Character and string helpers -/

/-- ASCII lower-casing of one character, the effect of Python str.lower on
the ASCII range. -/
def lowerChar (c : Char) : Char := Char.toLower c

/-- Models Python s.lower() (at ASCII level). -/
def lowerString (s : String) : String := String.mk (s.data.map lowerChar)

/-- Models Python s.replace("_", " "): the pattern is a single character,
so the replacement is a character map. -/
def underscoreToSpace (s : String) : String :=
  String.mk (s.data.map (fun c => if c = '_' then ' ' else c))

/-- Models the Python format f-string with format spec 02 applied to a
non-negative integer: zero-pad to width two. -/
def pad2 (n : Nat) : String := if n < 10 then "0" ++ Nat.repr n else Nat.repr n

/-- Models Python s.startswith(c) for a single-character prefix c
(the script only uses startswith with the one-character string Q). -/
def pyStartsWith (s : String) (c : Char) : Bool :=
  match s.data with
  | [] => false
  | a :: _ => a == c

/-- Numeric value of a decimal digit character. -/
def digitVal (c : Char) : Nat := c.toNat - 48

/-- Parse a non-empty all-digit character list as a decimal Nat. -/
def digitsToNat? (cs : List Char) : Option Nat :=
  if cs ≠ [] ∧ cs.all Char.isDigit then
    some (cs.foldl (fun n c => n * 10 + digitVal c) 0)
  else none

/-- Python slice l[a:b] for 0 ≤ a ≤ b: the elements with indices in
[a, b). -/
def pySlice {α : Type} (l : List α) (a b : Nat) : List α := (l.take b).drop a

/-! ## 3. Calendar model -/

/-- Gregorian leap-year test, as datetime uses it. -/
def isLeapYear (y : Nat) : Bool := y % 4 == 0 && (y % 100 != 0 || y % 400 == 0)

/-- Number of days of month m (1..12) in year y, as datetime validates. -/
def daysInMonth (y m : Nat) : Nat :=
  if m = 2 then (if isLeapYear y then 29 else 28)
  else if m = 4 ∨ m = 6 ∨ m = 9 ∨ m = 11 then 30
  else 31

/-- The twelve English month names. -/
def monthNames : List String :=
  ["January", "February", "March", "April", "May", "June",
   "July", "August", "September", "October", "November", "December"]

/-- Models calendar.month_name[m]: index 0 is the empty string, indices
1..12 are the month names. -/
def monthName (m : Nat) : String := ("" :: monthNames).getD m ""

/-- The date label used as the grouping key: full month name, a space, and
the unpadded day number (f-string at lines 122 and 168 of the script). -/
def dateLabel (m d : Nat) : String := monthName m ++ " " ++ Nat.repr d

/-- (month, day) denotes a valid calendar date when February 29 is
admitted (day bounds taken against the leap reference year 2024). -/
def validDateLeap (m d : Nat) : Prop :=
  1 ≤ m ∧ m ≤ 12 ∧ 1 ≤ d ∧ d ≤ daysInMonth 2024 m

instance (m d : Nat) : Decidable (validDateLeap m d) := by
  unfold validDateLeap; infer_instance

/-- Month lengths of the reference leap year 2024. -/
def monthLengths2024 : List Nat := [31, 29, 31, 30, 31, 30, 31, 31, 30, 31, 30, 31]

/-- Walk the month lengths to convert a day-of-year ordinal to (month, day). -/
def dateFromOrdinal : Nat → Nat → List Nat → Nat × Nat
  | m, n, [] => (m, n)
  | m, n, len :: rest => if n ≤ len then (m, n) else dateFromOrdinal (m + 1) (n - len) rest

/-- Models datetime.date(2024, 1, 1) + timedelta(days = n - 1) projected to
(month, day), for day-of-year ordinal n in 1..366 (2024 is a leap year, so
the ValueError branch of the loop never fires). -/
def dateOfYearDay2024 (n : Nat) : Nat × Nat := dateFromOrdinal 1 n monthLengths2024

/-! ## 4. The CRIME_RE keyword search

CRIME_RE is the verbose, case-insensitive regular expression of the script:
an alternation of fixed keywords between word boundaries.  Python re.search
scans positions left to right and, at each position, tries the alternatives
in pattern order with greedy optional groups.  The model enumerates the
backtracking order explicitly as a flat candidate list: each top-level
alternative contributes its expansions in the order the engine tries them
(greedy optional suffix first; inner alternations in written order). -/

/-- Word characters for the word-boundary test, modelled at ASCII level
(letters, digits, underscore). -/
def isWordChar (c : Char) : Bool := c.isAlphanum || c = '_'

/-- All literal candidates of CRIME_RE in backtracking order. -/
def crimeCandidates : List String :=
  ["murder", "assassination", "assassin", "shooting", "robbery",
   "kidnapping", "kidnap", "hijack", "massacre", "bombing", "bomb",
   "terrorism", "terrorist", "serial killer", "strangler", "ripper",
   "fraud", "embezzle", "embezzlement", "money laundering",
   "insider trading", "tax evasion", "bribery", "corruption", "extortion",
   "ponzi", "scam", "securities fraud", "pyramid scheme", "price fixing",
   "racketeering", "manslaughter", "assault", "rape", "arson"]

/-- Does candidate cand match at the current position?  prev is the
character before the position (none at the start of the text); rest is the
lower-cased text from the position on.  Both word boundaries must hold
(every candidate begins and ends with a word character). -/
def candMatchAt (prev : Option Char) (rest : List Char) (cand : String) : Bool :=
  (match prev with
   | none => true
   | some p => !isWordChar p) &&
  cand.data.isPrefixOf rest &&
  (match rest.drop cand.data.length with
   | [] => true
   | c :: _ => !isWordChar c)

/-- Try every candidate, in backtracking order, at the current position. -/
def tryCandsAt (prev : Option Char) (rest : List Char) : Option String :=
  crimeCandidates.findSome? (fun cand => if candMatchAt prev rest cand then some cand else none)

/-- Scan positions left to right; the first position with a match wins. -/
def crimeSearchAux (prev : Option Char) : List Char → Option String
  | [] => none
  | c :: cs =>
    match tryCandsAt prev (c :: cs) with
    | some k => some k
    | none => crimeSearchAux (some c) cs

/-- Models CRIME_RE.search(text) followed by match.group(1).lower(): the
returned string is the matched keyword in lower case (the candidates are
lower case and matching is performed on the lower-cased text, so the
lower-cased matched slice is the candidate itself). -/
def crimeSearch (text : String) : Option String :=
  crimeSearchAux none (lowerString text).data

/-! ## 5. The Event Record and the group payload -/

/-- One canonical Event Record (the row dict built at lines 124 and 209 of
the script).  Latitude and longitude carry the raw coordinate values
opaquely as strings (empty when absent). -/
structure Row where
  source : String
  month : String
  day : String
  year_of_event : Int
  event : String
  title : String
  description : String
  crime_type : String
  country : String
  url : String
  latitude : String
  longitude : String
  extract : String
  related_topics : String
  topic_page_urls : String
deriving Repr, DecidableEq

/-- The dict-comprehension payload (lines 133 and 219): the row minus the
keys month, day, latitude, longitude, source. -/
structure Payload where
  year_of_event : Int
  event : String
  title : String
  description : String
  crime_type : String
  country : String
  url : String
  extract : String
  related_topics : String
  topic_page_urls : String
deriving Repr, DecidableEq

/-- Build the payload from a row, as the comprehension does. -/
def payloadOfRow (r : Row) : Payload :=
  { year_of_event := r.year_of_event, event := r.event, title := r.title,
    description := r.description, crime_type := r.crime_type,
    country := r.country, url := r.url, extract := r.extract,
    related_topics := r.related_topics, topic_page_urls := r.topic_page_urls }

/-- The Date Group Map accumulator, flattened in append order: each accepted
record contributes one (date label, event text, payload) entry.  The
defaultdict-of-lists view is recovered by groupByLabel below. -/
abbrev GroupAcc : Type := List (String × String × Payload)

/-- Python exceptions relevant to the script: ValueError and KeyError. -/
inductive PyErr where
  | valueError (msg : String)
  | keyError (key : String)
deriving Repr, DecidableEq

/-! ## 6. Wikidata normalizer (process_wikidata_results) -/

/-- One row of results.bindings: a mapping from field name to a dict with a
value key.  Each field is the string under value, when present (the nested
item.get(field, ...).get(value, ...) chains collapse the two
absence levels). -/
structure WDItem where
  date : Option String
  itemLabel : Option String
  countryLabel : Option String
  crimeTypeLabel : Option String
  article : Option String
deriving Repr, DecidableEq

/-- Models datetime.datetime.fromisoformat on the date strings of the
script (after its replace of Z with an explicit offset), projected to
(year, month, day).  The leading calendar date YYYY-MM-DD is parsed and
validated exactly as datetime does (month 1..12, day within the month,
year at least 1); the time-of-day suffix is abstracted away: a string is
modelled as parseable when its date part is a valid calendar date. -/
def parseIsoDate (s : String) : Option (Nat × Nat × Nat) :=
  match s.data with
  | y1 :: y2 :: y3 :: y4 :: '-' :: m1 :: m2 :: '-' :: d1 :: d2 :: _ =>
    if ([y1, y2, y3, y4, m1, m2, d1, d2].all Char.isDigit) then
      let y := ((digitVal y1 * 10 + digitVal y2) * 10 + digitVal y3) * 10 + digitVal y4
      let m := digitVal m1 * 10 + digitVal m2
      let d := digitVal d1 * 10 + digitVal d2
      if 1 ≤ y ∧ 1 ≤ m ∧ m ≤ 12 ∧ 1 ≤ d ∧ d ≤ daysInMonth y m then
        some (y, m, d)
      else none
    else none
  | _ => none

/-- The body of the per-row try block (lines 108..135).  Except.error is a
raised ValueError; the result of a successful iteration is the parsed
(month, day) together with the built row.  Python truthiness: a missing or
empty date string raises, a missing or empty label raises, and so does a
label starting with the capital letter Q. -/
def wikidataRowBody (item : WDItem) : Except PyErr (Nat × Nat × Row) :=
  match item.date with
  | none => .error (.valueError "Missing date")
  | some dateStr =>
    if dateStr = "" then .error (.valueError "Missing date")
    else
      match parseIsoDate dateStr with
      | none => .error (.valueError "Invalid isoformat string")
      | some (y, m, d) =>
        match item.itemLabel with
        | none => .error (.valueError "Missing or invalid itemLabel")
        | some eventText =>
          if eventText = "" ∨ pyStartsWith eventText 'Q' then
            .error (.valueError "Missing or invalid itemLabel")
          else
            let country := item.countryLabel.getD ""
            let crimeType := lowerString (item.crimeTypeLabel.getD "crime")
            let url := item.article.getD ""
            .ok (m, d,
              { source := "Wikidata", month := pad2 m, day := pad2 d,
                year_of_event := (y : Int), event := eventText,
                title := eventText, description := "Source: Wikidata",
                crime_type := crimeType, country := country, url := url,
                latitude := "", longitude := "", extract := "",
                related_topics := "", topic_page_urls := "" })

/-- Loop state of process_wikidata_results: the two shared accumulators and
the two counters. -/
structure WDState where
  rows : List Row
  groups : GroupAcc
  processed : Nat
  skipped : Nat
deriving Repr, DecidableEq

/-- One iteration of the for loop: the except clause turns a raised
ValueError or KeyError into a skip; a successful body appends the row to
the flat list, appends the (label, event text, payload) entry to the Date
Group Map, and bumps the processed counter. -/
def wikidataStep (st : WDState) (item : WDItem) : WDState :=
  match wikidataRowBody item with
  | .error _ => { st with skipped := st.skipped + 1 }
  | .ok (m, d, row) =>
    { st with
        rows := st.rows ++ [row],
        groups := st.groups ++ [(dateLabel m d, row.event, payloadOfRow row)],
        processed := st.processed + 1 }

/-- The for loop over results.bindings. -/
def processWikidataLoop : List WDItem → WDState → WDState
  | [], st => st
  | item :: rest, st => processWikidataLoop rest (wikidataStep st item)

/-- process_wikidata_results on a payload that carries a results.bindings
array, starting from the given shared accumulators with fresh counters.
(When the payload is falsy or lacks results.bindings the function returns
early and the accumulators are untouched.) -/
def processWikidataResults (items : List WDItem) (rows₀ : List Row)
    (groups₀ : GroupAcc) : WDState :=
  processWikidataLoop items ⟨rows₀, groups₀, 0, 0⟩

/-- The rows accepted (not skipped) from a bindings array, with their
parsed (month, day). -/
def wdAccepted (items : List WDItem) : List (Nat × Nat × Row) :=
  items.filterMap (fun item => (wikidataRowBody item).toOption)

/-! ## 7. OnThisDay normalizer (the per-event loop of main, lines 180..220) -/

/-- A coordinates dict (lat, lon read with .get and an empty-string
default).  The walrus truthiness test treats a present dict as truthy
(the feed never sends an empty coordinates object). -/
structure Coord where
  lat : Option String
  lon : Option String
deriving Repr, DecidableEq

/-- One entry of the pages array of a feed event.  The title is accessed
with brackets (raising KeyError when absent), every other field through a
defaulted .get chain; desktopPage collapses the nested
content_urls.desktop.page lookups. -/
structure OTDPage where
  title : Option String
  description : Option String
  coordinates : Option Coord
  extract : Option String
  desktopPage : Option String
deriving Repr, DecidableEq

/-- One entry of the events array of a feed day.  The text is accessed with
brackets (raising KeyError when absent); year through .get (None when
absent); a missing pages key is indistinguishable from an empty list
because of the .get default. -/
structure OTDEvent where
  text : Option String
  year : Option Int
  pages : List OTDPage
deriving Repr, DecidableEq

/-- The scan for the first page among the leading MAX_PAGES that carries
coordinates (lines 198..202). -/
def scanCoordinates : List OTDPage → Option Coord
  | [] => none
  | p :: ps =>
    match p.coordinates with
    | some c => some c
    | none => scanCoordinates ps

/-- Sequential effectful map over Except, evaluating left to right and
surfacing the first raised exception, as a Python list comprehension
does. -/
def mapExcept {α β : Type} (f : α → Except PyErr β) : List α → Except PyErr (List β)
  | [] => .ok []
  | a :: as =>
    match f a with
    | .error e => .error e
    | .ok b =>
      match mapExcept f as with
      | .error e => .error e
      | .ok bs => .ok (b :: bs)

/-- p[title].replace of underscores, raising KeyError on a missing
title. -/
def relatedTitleE (p : OTDPage) : Except PyErr String :=
  match p.title with
  | none => .error (.keyError "title")
  | some t => .ok (underscoreToSpace t)

/-- The f-string of line 206: the underscore-replaced title, a colon and a
space, then the desktop URL (empty when absent). -/
def topicPairE (p : OTDPage) : Except PyErr String :=
  match p.title with
  | none => .error (.keyError "title")
  | some t => .ok (underscoreToSpace t ++ ": " ++ p.desktopPage.getD "")

/-- The pages after the primary, up to the MAX_PAGES window: pages[1:MAX_PAGES]
(line 204). -/
def relatedPages (pages : List OTDPage) : List OTDPage := pySlice pages 1 MAX_PAGES

/-- The body of one iteration of the per-event loop, for the (month, day)
of the surrounding day loop.  There is no try clause here: Except.error is
an uncaught exception.  Except.ok none is a continue (the event is
filtered out); Except.ok (some row) is an accepted event. -/
def onThisDayEventBody (m d : Nat) (ev : OTDEvent) : Except PyErr (Option Row) :=
  match ev.text with
  | none => .error (.keyError "text")
  | some text =>
    match crimeSearch text with
    | none => .ok none
    | some crimeType =>
      match ev.year with
      | none => .ok none
      | some eventYear =>
        if eventYear < YEAR_CUTOFF then .ok none
        else
          match ev.pages with
          | [] => .ok none
          | firstPage :: restPages =>
            match firstPage.title with
            | none => .error (.keyError "title")
            | some rawTitle =>
              let title := underscoreToSpace rawTitle
              let description := firstPage.description.getD ""
              let url := firstPage.desktopPage.getD ""
              let extract := firstPage.extract.getD ""
              let coordinates := scanCoordinates (pySlice (firstPage :: restPages) 0 MAX_PAGES)
              match mapExcept relatedTitleE (relatedPages (firstPage :: restPages)) with
              | .error e => .error e
              | .ok relTitles =>
                match mapExcept topicPairE (relatedPages (firstPage :: restPages)) with
                | .error e => .error e
                | .ok relPairs =>
                  .ok (some
                    { source := "OnThisDay", month := pad2 m, day := pad2 d,
                      year_of_event := eventYear, event := text, title := title,
                      description := description, crime_type := crimeType,
                      country := "", url := url,
                      latitude := (match coordinates with
                                   | some c => c.lat.getD ""
                                   | none => ""),
                      longitude := (match coordinates with
                                    | some c => c.lon.getD ""
                                    | none => ""),
                      extract := extract,
                      related_topics := String.intercalate ", " relTitles,
                      topic_page_urls := String.intercalate ", " relPairs })

/-- The per-event for loop of one day: an uncaught exception aborts the
whole loop (and the process), a continue moves to the next event, an
accepted event appends to both shared accumulators. -/
def processOnThisDayEvents (m d : Nat) :
    List OTDEvent → List Row → GroupAcc → Except PyErr (List Row × GroupAcc)
  | [], rows, groups => .ok (rows, groups)
  | ev :: evs, rows, groups =>
    match onThisDayEventBody m d ev with
    | .error e => .error e
    | .ok none => processOnThisDayEvents m d evs rows groups
    | .ok (some row) =>
      processOnThisDayEvents m d evs (rows ++ [row])
        (groups ++ [(dateLabel m d, row.event, payloadOfRow row)])

/-- The rows accepted (neither filtered out nor aborted) from the events array of one
day. -/
def otdAccepted (m d : Nat) (evs : List OTDEvent) : List Row :=
  evs.filterMap (fun ev => ((onThisDayEventBody m d ev).toOption).join)

/-! ## 8. Exporter (lines 226..266) -/

/-- Append value v under key k in an insertion-ordered list of groups, as a
defaultdict-of-lists does. -/
def insertGrouped {α : Type} (m : List (String × List α)) (k : String) (v : α) :
    List (String × List α) :=
  match m with
  | [] => [(k, [v])]
  | (k₁, vs) :: rest =>
    if k₁ = k then (k₁, vs ++ [v]) :: rest else (k₁, vs) :: insertGrouped rest k v

/-- Recover the defaultdict view of the flat group accumulator: keys in
first-appearance order, values in append order. -/
def groupByLabel (g : GroupAcc) : List (String × List (String × Payload)) :=
  g.foldl (fun acc entry => insertGrouped acc entry.1 (entry.2.1, entry.2.2)) []

/-- Month-name lookup of the strptime directive %B (the label keys produced
by the script are canonical, so exact names suffice). -/
def monthIndex : String → Option Nat
  | "January" => some 1
  | "February" => some 2
  | "March" => some 3
  | "April" => some 4
  | "May" => some 5
  | "June" => some 6
  | "July" => some 7
  | "August" => some 8
  | "September" => some 9
  | "October" => some 10
  | "November" => some 11
  | "December" => some 12
  | _ => none

/-- Split a character list at every space, keeping empty fields. -/
def splitSpacesAux (cur : List Char) : List Char → List (List Char)
  | [] => [cur.reverse]
  | c :: cs =>
    if c = ' ' then cur.reverse :: splitSpacesAux [] cs
    else splitSpacesAux (c :: cur) cs

/-- Models strptime(label ++ " 2024", "%B %d %Y") projected to
(month, day): the label must be a month name, a space, and a day number
valid for that month in the reference leap year 2024.  (The appended fixed
year only affects leap-day validity, captured by using 2024 in the day
bound.) -/
def parseLabel (s : String) : Option (Nat × Nat) :=
  match splitSpacesAux [] s.data with
  | [mon, dstr] =>
    match monthIndex (String.mk mon), digitsToNat? dstr with
    | some m, some d =>
      if 1 ≤ d ∧ d ≤ daysInMonth 2024 m then some (m, d) else none
    | _, _ => none
  | _ => none

/-- The comparison key of the sorted call at line 257: a datetime of the
fixed year 2024, whose order is the lexicographic order on (month, day).
Encoded order-isomorphically as month * 32 + day (days are below 32). -/
def sortKey (s : String) : Nat :=
  match parseLabel s with
  | some (m, d) => m * 32 + d
  | none => 0

/-- Strict chronological order on (month, day) pairs. -/
def pairLT (a b : Nat × Nat) : Prop := a.1 < b.1 ∨ (a.1 = b.1 ∧ a.2 < b.2)

instance (a b : Nat × Nat) : Decidable (pairLT a b) := by
  unfold pairLT; infer_instance

/-- sorted(events_by_date.items(), key = strptime of the label): a sort of
the grouped map by the chronological key.  With pairwise-distinct keys any
sorted permutation has the same key sequence, so the stable sort of Python
is modelled with insertion sort. -/
def sortGroups (g : List (String × List (String × Payload))) :
    List (String × List (String × Payload)) :=
  List.insertionSort (fun a b => sortKey a.1 ≤ sortKey b.1) g

/-- Lexicographic (month, day, year_of_event) comparison used by the
sort_values call at line 244: month and day compare as strings (equivalent
to numeric order thanks to the zero padding), the year as an integer. -/
def rowOrder (a b : Row) : Prop :=
  a.month < b.month ∨ (a.month = b.month ∧
    (a.day < b.day ∨ (a.day = b.day ∧ a.year_of_event ≤ b.year_of_event)))

instance (a b : Row) : Decidable (rowOrder a b) := by
  unfold rowOrder; infer_instance

/-- The tabular artifact row order. -/
def sortRows (rows : List Row) : List Row := List.insertionSort rowOrder rows

/-- Outcome of the export phase: either both artifacts (the sorted table
and the chronologically sorted grouped map) are produced, or nothing is
written and the nothing-to-save condition is logged. -/
inductive ExportResult where
  | written (table : List Row) (grouped : List (String × List (String × Payload)))
  | nothingToSave
deriving Repr, DecidableEq

/-- The export block: if all_rows is truthy (non-empty) both files are
written, otherwise the script logs that there is nothing to save and
writes nothing. -/
def exportPhase (allRows : List Row) (groups : GroupAcc) : ExportResult :=
  if allRows = [] then .nothingToSave
  else .written (sortRows allRows) (sortGroups (groupByLabel groups))

/-! ## 9. Concrete sample inputs (used by witnesses and counterexamples) -/

/-- A well-formed Wikidata row. -/
def wdItemOK : WDItem :=
  { date := some "1995-04-19T00:00:00Z",
    itemLabel := some "Oklahoma City bombing",
    countryLabel := some "United States of America",
    crimeTypeLabel := some "Terrorism",
    article := some "https://en.wikipedia.org/wiki/Oklahoma_City_bombing" }

/-- A Wikidata row whose event year is below the cutoff but whose fields
are otherwise well formed. -/
def wdItem1850 : WDItem :=
  { date := some "1850-03-15T00:00:00Z",
    itemLabel := some "Great Train Robbery",
    countryLabel := none,
    crimeTypeLabel := some "Robbery",
    article := none }

/-- A Wikidata row whose label is resolved text that happens to begin with
the letter Q. -/
def wdItemQuebec : WDItem :=
  { date := some "2017-01-29T00:00:00Z",
    itemLabel := some "Quebec shooting",
    countryLabel := some "Canada",
    crimeTypeLabel := some "Mass murder",
    article := none }

/-- A Wikidata row whose label is a raw entity identifier. -/
def wdItemQ12345 : WDItem :=
  { date := some "2017-01-29T00:00:00Z",
    itemLabel := some "Q12345",
    countryLabel := none,
    crimeTypeLabel := none,
    article := none }

/-- A primary feed page with coordinates and a desktop URL. -/
def pageA : OTDPage :=
  { title := some "Oklahoma_City_bombing",
    description := some "1995 attack in the United States",
    coordinates := some { lat := some "35.47", lon := some "-97.51" },
    extract := some "The Oklahoma City bombing was an attack.",
    desktopPage := some "https://en.wikipedia.org/wiki/Oklahoma_City_bombing" }

/-- A secondary feed page with no desktop URL. -/
def pageB : OTDPage :=
  { title := some "Timothy_McVeigh",
    description := none, coordinates := none, extract := none,
    desktopPage := none }

/-- A feed event whose text contains the keyword bombing, year 1995, and
two pages. -/
def evBomb : OTDEvent :=
  { text := some "The Oklahoma City bombing kills 168 people.",
    year := some 1995, pages := [pageA, pageB] }

/-- A feed event with no text key. -/
def evNoText : OTDEvent := { text := none, year := some 1995, pages := [pageA] }

/-- A feed event whose text matches no crime keyword. -/
def evNoMatch : OTDEvent :=
  { text := some "A treaty is signed.", year := some 1995, pages := [pageA] }

/-- The Event Record the OnThisDay normalizer produces from evBomb on
April 19. -/
def rowBomb : Row :=
  { source := "OnThisDay", month := "04", day := "19",
    year_of_event := 1995,
    event := "The Oklahoma City bombing kills 168 people.",
    title := "Oklahoma City bombing",
    description := "1995 attack in the United States",
    crime_type := "bombing", country := "",
    url := "https://en.wikipedia.org/wiki/Oklahoma_City_bombing",
    latitude := "35.47", longitude := "-97.51",
    extract := "The Oklahoma City bombing was an attack.",
    related_topics := "Timothy McVeigh",
    topic_page_urls := "Timothy McVeigh: " }

/-- The Event Record the Wikidata normalizer produces from wdItemOK. -/
def wdRowOK : Row :=
  { source := "Wikidata", month := "04", day := "19",
    year_of_event := 1995,
    event := "Oklahoma City bombing", title := "Oklahoma City bombing",
    description := "Source: Wikidata", crime_type := "terrorism",
    country := "United States of America",
    url := "https://en.wikipedia.org/wiki/Oklahoma_City_bombing",
    latitude := "", longitude := "", extract := "",
    related_topics := "", topic_page_urls := "" }

/-! ## 10. Helper instances and lemmas -/

instance {ε α : Type} [DecidableEq ε] [DecidableEq α] : DecidableEq (Except ε α) := fun a b =>
  match a, b with
  | .error e₁, .error e₂ =>
    if h : e₁ = e₂ then isTrue (by rw [h]) else isFalse (fun hh => by cases hh; exact h rfl)
  | .error _, .ok _ => isFalse (fun hh => by cases hh)
  | .ok _, .error _ => isFalse (fun hh => by cases hh)
  | .ok a₁, .ok a₂ =>
    if h : a₁ = a₂ then isTrue (by rw [h]) else isFalse (fun hh => by cases hh; exact h rfl)

/-- Number of rows of a bindings array the Wikidata loop skips. -/
def wdSkipped (items : List WDItem) : Nat :=
  (items.filter (fun item => (wikidataRowBody item).toOption.isNone)).length

/-- Full characterisation of the Wikidata loop: appended rows, appended
group entries, and both counters, for any starting state. -/
theorem processWikidataLoop_spec (items : List WDItem) (st : WDState) :
    (processWikidataLoop items st).rows
        = st.rows ++ (wdAccepted items).map (fun t => t.2.2) ∧
    (processWikidataLoop items st).groups
        = st.groups ++ (wdAccepted items).map
            (fun t => (dateLabel t.1 t.2.1, t.2.2.event, payloadOfRow t.2.2)) ∧
    (processWikidataLoop items st).processed
        = st.processed + (wdAccepted items).length ∧
    (processWikidataLoop items st).skipped = st.skipped + wdSkipped items := by
  induction items generalizing st with
  | nil => simp [processWikidataLoop, wdAccepted, wdSkipped]
  | cons item rest ih =>
    have hloop : processWikidataLoop (item :: rest) st
        = processWikidataLoop rest (wikidataStep st item) := rfl
    cases h : wikidataRowBody item with
    | error e =>
      have hstep : wikidataStep st item = { st with skipped := st.skipped + 1 } := by
        simp [wikidataStep, h]
      obtain ⟨h1, h2, h3, h4⟩ := ih { st with skipped := st.skipped + 1 }
      rw [hloop, hstep]
      refine ⟨?_, ?_, ?_, ?_⟩ <;>
        simp [h1, h2, h3, h4, wdAccepted, wdSkipped, h, Except.toOption,
          List.filterMap_cons, List.filter_cons] <;> omega
    | ok t =>
      obtain ⟨m, d, row⟩ := t
      have hstep : wikidataStep st item =
          { st with rows := st.rows ++ [row],
                    groups := st.groups ++ [(dateLabel m d, row.event, payloadOfRow row)],
                    processed := st.processed + 1 } := by
        simp [wikidataStep, h]
      obtain ⟨h1, h2, h3, h4⟩ :=
        ih { st with rows := st.rows ++ [row],
                     groups := st.groups ++ [(dateLabel m d, row.event, payloadOfRow row)],
                     processed := st.processed + 1 }
      rw [hloop, hstep]
      refine ⟨?_, ?_, ?_, ?_⟩ <;>
        simp [h1, h2, h3, h4, wdAccepted, wdSkipped, h, Except.toOption,
          List.filterMap_cons, List.filter_cons] <;> omega

/-- Full characterisation of the successful runs of the per-event loop of
one OnThisDay day: the appended rows are the accepted rows in order, and
the appended group entries correspond to them one for one. -/
theorem processOnThisDayEvents_ok_spec (m d : Nat) (evs : List OTDEvent)
    (rows₀ : List Row) (groups₀ : GroupAcc) (res : List Row × GroupAcc)
    (h : processOnThisDayEvents m d evs rows₀ groups₀ = .ok res) :
    res.1 = rows₀ ++ otdAccepted m d evs ∧
    res.2 = groups₀ ++ (otdAccepted m d evs).map
      (fun row => (dateLabel m d, row.event, payloadOfRow row)) := by
  induction evs generalizing rows₀ groups₀ with
  | nil =>
    simp only [processOnThisDayEvents, Except.ok.injEq] at h
    simp [← h, otdAccepted]
  | cons ev evs ih =>
    simp only [processOnThisDayEvents] at h
    cases hb : onThisDayEventBody m d ev with
    | error e => rw [hb] at h; cases h
    | ok o =>
      cases o with
      | none =>
        rw [hb] at h
        obtain ⟨h1, h2⟩ := ih rows₀ groups₀ h
        simp [h1, h2, otdAccepted, List.filterMap_cons, hb, Except.toOption]
      | some row =>
        rw [hb] at h
        obtain ⟨h1, h2⟩ := ih (rows₀ ++ [row])
          (groups₀ ++ [(dateLabel m d, row.event, payloadOfRow row)]) h
        simp [h1, h2, otdAccepted, List.filterMap_cons, hb, Except.toOption]

/-- Inversion of a successful Wikidata row: every accepted row comes from a
non-empty parseable date and a non-empty label not starting with Q, and
the row is exactly the record the body builds. -/
theorem wikidataRowBody_ok_inv {item : WDItem} {m d : Nat} {row : Row}
    (h : wikidataRowBody item = .ok (m, d, row)) :
    ∃ s y eventText,
      item.date = some s ∧ s ≠ "" ∧ parseIsoDate s = some (y, m, d) ∧
      item.itemLabel = some eventText ∧
      ¬(eventText = "" ∨ pyStartsWith eventText 'Q' = true) ∧
      row = { source := "Wikidata", month := pad2 m, day := pad2 d,
              year_of_event := (y : Int), event := eventText,
              title := eventText, description := "Source: Wikidata",
              crime_type := lowerString (item.crimeTypeLabel.getD "crime"),
              country := item.countryLabel.getD "",
              url := item.article.getD "",
              latitude := "", longitude := "", extract := "",
              related_topics := "", topic_page_urls := "" } := by
  obtain ⟨odate, olabel, ocountry, ocrime, oarticle⟩ := item
  cases odate with
  | none => simp [wikidataRowBody] at h
  | some s =>
    by_cases hs : s = ""
    · simp [wikidataRowBody, hs] at h
    · cases hp : parseIsoDate s with
      | none => simp [wikidataRowBody, hs, hp] at h
      | some t =>
        obtain ⟨y, m₁, d₁⟩ := t
        cases olabel with
        | none => simp [wikidataRowBody, hs, hp] at h
        | some eventText =>
          by_cases hl : eventText = "" ∨ pyStartsWith eventText 'Q' = true
          · simp [wikidataRowBody, hs, hp, hl] at h
          · have h₂ := h
            simp only [wikidataRowBody, hs, hp, if_neg hs, hl, if_neg hl,
              if_false] at h₂
            simp only [Except.ok.injEq, Prod.mk.injEq] at h₂
            obtain ⟨hm, hd, hrow⟩ := h₂
            subst hm; subst hd
            exact ⟨s, y, eventText, rfl, hs, hp, rfl, hl, hrow.symm⟩

/-- Inversion of an accepted OnThisDay event: every accepted row comes
from a present text with a keyword match, a present year at or above the
cutoff, a non-empty pages list whose primary page has a title, successful
related-title and pair comprehensions, and the row is exactly the record
the body builds. -/
theorem onThisDayEventBody_ok_inv {m d : Nat} {ev : OTDEvent} {row : Row}
    (h : onThisDayEventBody m d ev = .ok (some row)) :
    ∃ text kw yr fp rps rawTitle relTitles relPairs,
      ev.text = some text ∧
      crimeSearch text = some kw ∧
      ev.year = some yr ∧
      ¬ yr < YEAR_CUTOFF ∧
      ev.pages = fp :: rps ∧
      fp.title = some rawTitle ∧
      mapExcept relatedTitleE (relatedPages (fp :: rps)) = .ok relTitles ∧
      mapExcept topicPairE (relatedPages (fp :: rps)) = .ok relPairs ∧
      row = { source := "OnThisDay", month := pad2 m, day := pad2 d,
              year_of_event := yr, event := text,
              title := underscoreToSpace rawTitle,
              description := fp.description.getD "",
              crime_type := kw, country := "",
              url := fp.desktopPage.getD "",
              latitude := (match scanCoordinates (pySlice (fp :: rps) 0 MAX_PAGES) with
                           | some c => c.lat.getD ""
                           | none => ""),
              longitude := (match scanCoordinates (pySlice (fp :: rps) 0 MAX_PAGES) with
                            | some c => c.lon.getD ""
                            | none => ""),
              extract := fp.extract.getD "",
              related_topics := String.intercalate ", " relTitles,
              topic_page_urls := String.intercalate ", " relPairs } := by
  obtain ⟨otext, oyear, pages⟩ := ev
  cases otext with
  | none => simp [onThisDayEventBody] at h
  | some text =>
    cases hkw : crimeSearch text with
    | none => simp [onThisDayEventBody, hkw] at h
    | some kw =>
      cases oyear with
      | none => simp [onThisDayEventBody, hkw] at h
      | some yr =>
        by_cases hyr : yr < YEAR_CUTOFF
        · simp [onThisDayEventBody, hkw, hyr] at h
        · cases pages with
          | nil => simp [onThisDayEventBody, hkw, hyr] at h
          | cons fp rps =>
            cases htitle : fp.title with
            | none => simp [onThisDayEventBody, hkw, hyr, htitle] at h
            | some rawTitle =>
              cases hT : mapExcept relatedTitleE (relatedPages (fp :: rps)) with
              | error e => simp [onThisDayEventBody, hkw, hyr, htitle, hT] at h
              | ok relTitles =>
                cases hP : mapExcept topicPairE (relatedPages (fp :: rps)) with
                | error e => simp [onThisDayEventBody, hkw, hyr, htitle, hT, hP] at h
                | ok relPairs =>
                  have h₂ := h
                  simp only [onThisDayEventBody, hkw, htitle, hT, hP] at h₂
                  rw [if_neg hyr] at h₂
                  simp only [Except.ok.injEq, Option.some.injEq] at h₂
                  exact ⟨text, kw, yr, fp, rps, rawTitle, relTitles, relPairs,
                    rfl, hkw, rfl, hyr, rfl, htitle, hT, hP, h₂.symm⟩

/-- A successful related-title comprehension returns exactly the
underscore-replaced titles (all present on success). -/
theorem mapExcept_relatedTitleE_ok (l : List OTDPage) (ts : List String)
    (h : mapExcept relatedTitleE l = .ok ts) :
    ts = l.map (fun p => underscoreToSpace (p.title.getD "")) := by
  induction l generalizing ts with
  | nil => simp only [mapExcept, Except.ok.injEq] at h; simp [← h]
  | cons p ps ih =>
    cases ht : p.title with
    | none => simp [mapExcept, relatedTitleE, ht] at h
    | some t =>
      simp only [mapExcept, relatedTitleE, ht] at h
      cases hrest : mapExcept relatedTitleE ps with
      | error e => rw [hrest] at h; cases h
      | ok bs =>
        rw [hrest] at h
        simp only [Except.ok.injEq] at h
        simp [← h, ih bs hrest, ht]

/-- A successful pair comprehension returns exactly the title-colon-URL
strings (titles all present on success, URLs defaulted to empty). -/
theorem mapExcept_topicPairE_ok (l : List OTDPage) (us : List String)
    (h : mapExcept topicPairE l = .ok us) :
    us = l.map (fun p => underscoreToSpace (p.title.getD "") ++ ": " ++ p.desktopPage.getD "") := by
  induction l generalizing us with
  | nil => simp only [mapExcept, Except.ok.injEq] at h; simp [← h]
  | cons p ps ih =>
    cases ht : p.title with
    | none => simp [mapExcept, topicPairE, ht] at h
    | some t =>
      simp only [mapExcept, topicPairE, ht] at h
      cases hrest : mapExcept topicPairE ps with
      | error e => rw [hrest] at h; cases h
      | ok bs =>
        rw [hrest] at h
        simp only [Except.ok.injEq] at h
        simp [← h, ih bs hrest, ht]

/-- A zero-padded month or day number prints as exactly two characters. -/
theorem pad2_length_two : ∀ n, n < 32 → 1 ≤ n → (pad2 n).length = 2 := by decide

/-- No month is longer in any year than in the leap reference year. -/
theorem daysInMonth_le_leap (y m : Nat) : daysInMonth y m ≤ daysInMonth 2024 m := by
  by_cases hm : m = 2
  · subst hm
    have h2024 : isLeapYear 2024 = true := by decide
    simp only [daysInMonth, if_pos rfl, h2024, if_true]
    cases hy : isLeapYear y <;> simp
  · simp [daysInMonth, hm]

/-- Every month of the reference year has at most 31 days. -/
theorem daysInMonth2024_le31 (m : Nat) : daysInMonth 2024 m ≤ 31 := by
  unfold daysInMonth
  split
  · split <;> omega
  · split <;> omega

/-- A successfully parsed ISO date is a valid calendar date. -/
theorem parseIsoDate_some_inv {s : String} {y m d : Nat}
    (h : parseIsoDate s = some (y, m, d)) :
    1 ≤ y ∧ 1 ≤ m ∧ m ≤ 12 ∧ 1 ≤ d ∧ d ≤ daysInMonth y m := by
  simp only [parseIsoDate] at h
  split at h
  · split at h
    · split at h
      · rename_i hcond
        simp only [Option.some.injEq, Prod.mk.injEq] at h
        obtain ⟨h1, h2, h3⟩ := h
        subst h1; subst h2; subst h3
        exact hcond
      · cases h
    · cases h
  · cases h

/-- A recognised month name has index between 1 and 12. -/
theorem monthIndex_bounds {s : String} {m : Nat} (h : monthIndex s = some m) :
    1 ≤ m ∧ m ≤ 12 := by
  unfold monthIndex at h
  split at h <;> simp_all <;> omega

/-- A successfully parsed date label denotes a month 1..12 and a day
1..31. -/
theorem parseLabel_some_inv {s : String} {m d : Nat}
    (h : parseLabel s = some (m, d)) :
    1 ≤ m ∧ m ≤ 12 ∧ 1 ≤ d ∧ d ≤ 31 := by
  unfold parseLabel at h
  split at h
  · split at h
    · rename_i mon dstr m₁ d₁ hmi hdig
      split at h
      · rename_i hcond
        simp only [Option.some.injEq, Prod.mk.injEq] at h
        obtain ⟨h1, h2⟩ := h
        subst h1; subst h2
        obtain ⟨hb1, hb2⟩ := monthIndex_bounds hmi
        exact ⟨hb1, hb2, hcond.1, le_trans hcond.2 (daysInMonth2024_le31 _)⟩
      · cases h
    · cases h
  · cases h

/-- Computation of the Wikidata row body on a row with a parseable
non-empty date and an acceptable label. -/
theorem wikidataRowBody_ok_of (item : WDItem) (s : String) (y m d : Nat)
    (lbl : String) (hdate : item.date = some s) (hne : s ≠ "")
    (hparse : parseIsoDate s = some (y, m, d))
    (hlbl : item.itemLabel = some lbl) (hne₂ : lbl ≠ "")
    (hq : pyStartsWith lbl 'Q' = false) :
    wikidataRowBody item = .ok (m, d,
      { source := "Wikidata", month := pad2 m, day := pad2 d,
        year_of_event := (y : Int), event := lbl, title := lbl,
        description := "Source: Wikidata",
        crime_type := lowerString (item.crimeTypeLabel.getD "crime"),
        country := item.countryLabel.getD "", url := item.article.getD "",
        latitude := "", longitude := "", extract := "",
        related_topics := "", topic_page_urls := "" }) := by
  have hcond : ¬(lbl = "" ∨ pyStartsWith lbl 'Q' = true) := by simp [hne₂, hq]
  simp only [wikidataRowBody, hdate, hparse, hlbl, if_neg hne, if_neg hcond]

/-- Accepted and skipped rows account for every binding exactly once. -/
theorem wdAccepted_add_wdSkipped (items : List WDItem) :
    (wdAccepted items).length + wdSkipped items = items.length := by
  induction items with
  | nil => simp [wdAccepted, wdSkipped]
  | cons item rest ih =>
    cases h : wikidataRowBody item with
    | error e =>
      simp only [wdAccepted, wdSkipped, List.filterMap_cons, List.filter_cons] at *
      simp [h, Except.toOption] at *
      omega
    | ok t =>
      simp only [wdAccepted, wdSkipped, List.filterMap_cons, List.filter_cons] at *
      simp [h, Except.toOption] at *
      omega

/-! ## 11. Claim theorems -/

/-- Claim C1: lockstep of the two accumulators.  For every batch processed
by either normalizer, the flat list grows by exactly the accepted rows in
order, and the Date Group Map accumulator grows by exactly one
(date label, event text, payload) entry per accepted row, the entry of
index i corresponding to the appended row of index i; hence each appended
record has exactly one corresponding group entry under its date label and
vice versa. -/
theorem c1_accumulators_lockstep :
    (∀ (items : List WDItem) (rows₀ : List Row) (groups₀ : GroupAcc),
      (processWikidataResults items rows₀ groups₀).rows
          = rows₀ ++ (wdAccepted items).map (fun t => t.2.2) ∧
      (processWikidataResults items rows₀ groups₀).groups
          = groups₀ ++ (wdAccepted items).map
              (fun t => (dateLabel t.1 t.2.1, t.2.2.event, payloadOfRow t.2.2))) ∧
    (∀ (m d : Nat) (evs : List OTDEvent) (rows₀ : List Row) (groups₀ : GroupAcc)
        (res : List Row × GroupAcc),
      processOnThisDayEvents m d evs rows₀ groups₀ = .ok res →
      res.1 = rows₀ ++ otdAccepted m d evs ∧
      res.2 = groups₀ ++ (otdAccepted m d evs).map
          (fun row => (dateLabel m d, row.event, payloadOfRow row))) := by
  constructor
  · intro items rows₀ groups₀
    obtain ⟨h1, h2, _, _⟩ := processWikidataLoop_spec items ⟨rows₀, groups₀, 0, 0⟩
    exact ⟨h1, h2⟩
  · exact processOnThisDayEvents_ok_spec

/-- Witness for C1: a concrete OnThisDay batch of one accepted and one
rejected event. -/
theorem c1_accumulators_lockstep_witness :
    processOnThisDayEvents 4 19 [evBomb, evNoMatch] [] []
        = .ok ([rowBomb], [(dateLabel 4 19, rowBomb.event, payloadOfRow rowBomb)]) ∧
    (([rowBomb], [(dateLabel 4 19, rowBomb.event, payloadOfRow rowBomb)]).1
        = [] ++ otdAccepted 4 19 [evBomb, evNoMatch] ∧
      ([rowBomb], [(dateLabel 4 19, rowBomb.event, payloadOfRow rowBomb)]).2
        = [] ++ (otdAccepted 4 19 [evBomb, evNoMatch]).map
            (fun row => (dateLabel 4 19, row.event, payloadOfRow row))) :=
  ⟨by decide,
   c1_accumulators_lockstep.2 4 19 [evBomb, evNoMatch] [] [] _ (by decide)⟩

/-- Claim C2 (original statement refuted): the Wikidata normalizer does
not itself enforce the year cutoff.  A bindings row whose date parses to
the year 1850 and whose label is acceptable is processed and appended to
the flat list even though 1850 is below YEAR_CUTOFF. -/
theorem c2_counterexample :
    (processWikidataResults [wdItem1850] [] []).rows.map (fun r => r.year_of_event)
        = [(1850 : Int)] ∧ (1850 : Int) < YEAR_CUTOFF :=
  ⟨by decide, by decide⟩

/-- Claim C2 (amended): the cutoff is enforced by the normalization step
only on the OnThisDay path; every record accepted by the OnThisDay event
body has year_of_event at or above YEAR_CUTOFF.  On the Wikidata path the
accepted record carries whatever year the date of the payload parses to (the
cutoff there comes from the upstream query filter, outside the
normalizer). -/
theorem c2_year_cutoff_amended :
    (∀ (m d : Nat) (ev : OTDEvent) (row : Row),
      onThisDayEventBody m d ev = .ok (some row) →
      YEAR_CUTOFF ≤ row.year_of_event) ∧
    (∀ (item : WDItem) (m d : Nat) (row : Row),
      wikidataRowBody item = .ok (m, d, row) →
      ∃ s y, item.date = some s ∧ parseIsoDate s = some (y, m, d) ∧
        row.year_of_event = (y : Int)) := by
  constructor
  · intro m d ev row h
    obtain ⟨text, kw, yr, fp, rps, rawTitle, rT, rP, _, _, _, hyr, _, _, _, _, hrow⟩ :=
      onThisDayEventBody_ok_inv h
    simpa [hrow] using le_of_not_lt hyr
  · intro item m d row h
    obtain ⟨s, y, eventText, hdate, _, hparse, _, _, hrow⟩ := wikidataRowBody_ok_inv h
    exact ⟨s, y, hdate, hparse, by rw [hrow]⟩

/-- Witness for the amended C2, at the concrete bombing event. -/
theorem c2_year_cutoff_amended_witness :
    onThisDayEventBody 4 19 evBomb = .ok (some rowBomb) ∧
    YEAR_CUTOFF ≤ rowBomb.year_of_event :=
  ⟨by decide, c2_year_cutoff_amended.1 4 19 evBomb rowBomb (by decide)⟩

/-- Claim C10: accounting invariant of the Wikidata normalizer.  For every
bindings array, processed plus skipped equals the number of rows, and the
processed counter equals the number of records appended to the flat list
during the call. -/
theorem c10_wikidata_row_accounting (items : List WDItem) (rows₀ : List Row)
    (groups₀ : GroupAcc) :
    (processWikidataResults items rows₀ groups₀).processed
        + (processWikidataResults items rows₀ groups₀).skipped = items.length ∧
    (processWikidataResults items rows₀ groups₀).rows.length
        = rows₀.length + (processWikidataResults items rows₀ groups₀).processed := by
  obtain ⟨h1, h2, h3, h4⟩ := processWikidataLoop_spec items ⟨rows₀, groups₀, 0, 0⟩
  have hacc := wdAccepted_add_wdSkipped items
  unfold processWikidataResults at *
  constructor
  · rw [h3, h4]
    simp only [WDState.processed, WDState.skipped] at *
    omega
  · rw [h1, h3]
    simp [List.length_append]

/-- Claim C3 (original statement refuted): the Wikidata normalizer does
not only reject identifier-shaped labels; it rejects every label starting
with the capital letter Q.  A row with the resolved label Quebec shooting
(valid date, otherwise well formed) is discarded and counted as skipped,
contradicting the claim that such rows pass the label rule. -/
theorem c3_counterexample :
    (processWikidataResults [wdItemQuebec] [] []).rows = [] ∧
    (processWikidataResults [wdItemQuebec] [] []).skipped = 1 :=
  ⟨by decide, by decide⟩

/-- Claim C3 (amended): for a row whose date is present, non-empty and
parseable, the normalizer accepts it exactly when the label is present,
non-empty and does not start with the capital letter Q — regardless of
what follows the Q.  In particular both Q12345 and Quebec shooting are
rejected. -/
theorem c3_label_rejection_amended (item : WDItem) (s : String) (y m d : Nat)
    (hdate : item.date = some s) (hne : s ≠ "")
    (hparse : parseIsoDate s = some (y, m, d)) :
    (∃ t, wikidataRowBody item = .ok t) ↔
    (∃ lbl, item.itemLabel = some lbl ∧ lbl ≠ "" ∧ pyStartsWith lbl 'Q' = false) := by
  constructor
  · rintro ⟨t, ht⟩
    obtain ⟨m₁, d₁, row⟩ := t
    obtain ⟨s₁, y₁, eventText, hdate₁, _, _, hlabel, hl, _⟩ := wikidataRowBody_ok_inv ht
    refine ⟨eventText, hlabel, fun hh => hl (Or.inl hh), ?_⟩
    cases hq : pyStartsWith eventText 'Q'
    · rfl
    · exact absurd (Or.inr hq) hl
  · rintro ⟨lbl, hlbl, hne₂, hq⟩
    exact ⟨_, wikidataRowBody_ok_of item s y m d lbl hdate hne hparse hlbl hne₂ hq⟩

/-- Witness for the amended C3, at a concrete accepted row. -/
theorem c3_label_rejection_amended_witness :
    (wdItemOK.date = some "1995-04-19T00:00:00Z" ∧
      ("1995-04-19T00:00:00Z" : String) ≠ "" ∧
      parseIsoDate "1995-04-19T00:00:00Z" = some (1995, 4, 19)) ∧
    ((∃ t, wikidataRowBody wdItemOK = .ok t) ↔
      (∃ lbl, wdItemOK.itemLabel = some lbl ∧ lbl ≠ "" ∧
        pyStartsWith lbl 'Q' = false)) :=
  ⟨⟨rfl, by decide, by decide⟩,
   c3_label_rejection_amended wdItemOK "1995-04-19T00:00:00Z" 1995 4 19
     rfl (by decide) (by decide)⟩

/-- Claim C4 (original statement refuted): a single-row failure can abort
the batch.  The OnThisDay per-event loop reads the event text unguarded,
so an event entry with no text key raises an uncaught key error that
terminates the whole day loop (and the process) abnormally. -/
theorem c4_counterexample :
    processOnThisDayEvents 4 19 [evNoText] [] [] = .error (.keyError "text") := rfl

/-- Claim C4 (amended): only the Wikidata row loop has the skip-and-
continue protection.  A Wikidata row whose body raises a value or key
error is counted as skipped, appends nothing, and the loop continues with
the remaining rows from that state; the OnThisDay per-event loop reads the
event text and the page titles unguarded, so a payload missing those
fields aborts the batch instead. -/
theorem c4_row_error_handling_amended (item : WDItem) (rest : List WDItem)
    (st : WDState) (e : PyErr) (h : wikidataRowBody item = .error e) :
    processWikidataLoop (item :: rest) st
      = processWikidataLoop rest { st with skipped := st.skipped + 1 } := by
  have hstep : wikidataStep st item = { st with skipped := st.skipped + 1 } := by
    simp [wikidataStep, h]
  show processWikidataLoop rest (wikidataStep st item) = _
  rw [hstep]

/-- Witness for the amended C4, at a concrete skipped row. -/
theorem c4_row_error_handling_amended_witness :
    wikidataRowBody wdItemQ12345 = .error (.valueError "Missing or invalid itemLabel") ∧
    processWikidataLoop [wdItemQ12345] ⟨[], [], 0, 0⟩
      = processWikidataLoop [] ⟨[], [], 0, 1⟩ :=
  ⟨by decide,
   c4_row_error_handling_amended wdItemQ12345 [] ⟨[], [], 0, 0⟩
     (.valueError "Missing or invalid itemLabel") (by decide)⟩

/-- Claim C5: for every accepted OnThisDay event, related_topics is the
comma-space join of the underscore-replaced titles of the pages after the
primary within the leading MAX_PAGES window (equivalently, of at most
MAX_PAGES - 1 pages after the primary), and topic_page_urls is the join of
the corresponding title-colon-URL pairs over the same pages, a missing
desktop URL rendering as empty. -/
theorem c5_related_topics_join (m d : Nat) (ev : OTDEvent) (row : Row)
    (h : onThisDayEventBody m d ev = .ok (some row)) :
    row.related_topics
        = String.intercalate ", " (((ev.pages.take MAX_PAGES).drop 1).map
            (fun p => underscoreToSpace (p.title.getD ""))) ∧
    row.related_topics
        = String.intercalate ", " (((ev.pages.drop 1).take (MAX_PAGES - 1)).map
            (fun p => underscoreToSpace (p.title.getD ""))) ∧
    row.topic_page_urls
        = String.intercalate ", " (((ev.pages.take MAX_PAGES).drop 1).map
            (fun p => underscoreToSpace (p.title.getD "") ++ ": " ++ p.desktopPage.getD "")) ∧
    row.topic_page_urls
        = String.intercalate ", " (((ev.pages.drop 1).take (MAX_PAGES - 1)).map
            (fun p => underscoreToSpace (p.title.getD "") ++ ": " ++ p.desktopPage.getD "")) := by
  obtain ⟨text, kw, yr, fp, rps, rawTitle, rT, rP, htext, _, _, _, hpages, _, hT, hP, hrow⟩ :=
    onThisDayEventBody_ok_inv h
  have hT₂ := mapExcept_relatedTitleE_ok _ _ hT
  have hP₂ := mapExcept_topicPairE_ok _ _ hP
  have hslice : (ev.pages.take MAX_PAGES).drop 1 = relatedPages (fp :: rps) := by
    rw [hpages]
    rfl
  have hslice₂ : (ev.pages.drop 1).take (MAX_PAGES - 1) = relatedPages (fp :: rps) := by
    rw [hpages]
    rfl
  refine ⟨?_, ?_, ?_, ?_⟩ <;> rw [hrow] <;>
    simp only [hslice, hslice₂, hT₂, hP₂]

/-- Witness for C5: the concrete bombing event with a second page with no
desktop URL. -/
theorem c5_related_topics_join_witness :
    onThisDayEventBody 4 19 evBomb = .ok (some rowBomb) ∧
    (rowBomb.related_topics
        = String.intercalate ", " (((evBomb.pages.take MAX_PAGES).drop 1).map
            (fun p => underscoreToSpace (p.title.getD ""))) ∧
      rowBomb.related_topics
        = String.intercalate ", " (((evBomb.pages.drop 1).take (MAX_PAGES - 1)).map
            (fun p => underscoreToSpace (p.title.getD ""))) ∧
      rowBomb.topic_page_urls
        = String.intercalate ", " (((evBomb.pages.take MAX_PAGES).drop 1).map
            (fun p => underscoreToSpace (p.title.getD "") ++ ": " ++ p.desktopPage.getD "")) ∧
      rowBomb.topic_page_urls
        = String.intercalate ", " (((evBomb.pages.drop 1).take (MAX_PAGES - 1)).map
            (fun p => underscoreToSpace (p.title.getD "") ++ ": " ++ p.desktopPage.getD ""))) :=
  ⟨by decide, c5_related_topics_join 4 19 evBomb rowBomb (by decide)⟩

/-- Claim C7: keyword gate of the OnThisDay normalizer.  An event whose
text matches no crime keyword contributes nothing to either accumulator
(its loop iteration is a no-op); the crime_type of an accepted event is exactly
the first matched keyword, lower-cased; and the concrete bombing event of
year 1995 with a non-empty pages list is accepted with crime_type
bombing. -/
theorem c7_keyword_match_crime_type :
    (∀ (m d : Nat) (ev : OTDEvent) (text : String),
      ev.text = some text → crimeSearch text = none →
      onThisDayEventBody m d ev = .ok none ∧
      ∀ (evs : List OTDEvent) (rows : List Row) (groups : GroupAcc),
        processOnThisDayEvents m d (ev :: evs) rows groups
          = processOnThisDayEvents m d evs rows groups) ∧
    (∀ (m d : Nat) (ev : OTDEvent) (row : Row),
      onThisDayEventBody m d ev = .ok (some row) →
      ∃ text, ev.text = some text ∧ crimeSearch text = some row.crime_type) ∧
    (processOnThisDayEvents 4 19 [evBomb] [] []
        = .ok ([rowBomb], [(dateLabel 4 19, rowBomb.event, payloadOfRow rowBomb)]) ∧
      rowBomb.crime_type = "bombing") := by
  refine ⟨?_, ?_, by decide, rfl⟩
  · intro m d ev text htext hnone
    have hbody : onThisDayEventBody m d ev = .ok none := by
      simp only [onThisDayEventBody, htext, hnone]
    refine ⟨hbody, fun evs rows groups => ?_⟩
    simp only [processOnThisDayEvents, hbody]
  · intro m d ev row h
    obtain ⟨text, kw, yr, fp, rps, rawTitle, rT, rP, htext, hkw, _, _, _, _, _, _, hrow⟩ :=
      onThisDayEventBody_ok_inv h
    exact ⟨text, htext, by simpa [hrow] using hkw⟩

/-- Witness for C7: the no-match event is a loop no-op. -/
theorem c7_keyword_match_crime_type_witness :
    evNoMatch.text = some "A treaty is signed." ∧
    crimeSearch "A treaty is signed." = none ∧
    processOnThisDayEvents 4 19 [evNoMatch] [] []
      = processOnThisDayEvents 4 19 [] [] [] :=
  ⟨rfl, by decide,
   (c7_keyword_match_crime_type.1 4 19 evNoMatch "A treaty is signed."
      rfl (by decide)).2 [] [] []⟩

set_option maxRecDepth 4000 in
/-- Claim C8: every accepted record carries zero-padded two-character
month and day strings denoting a valid calendar date.  On the Wikidata
path the parsed date is a valid calendar date (February 29 possible in
leap years of the event), and the record stores its zero-padded fields; on
the OnThisDay path the record stores the zero-padded loop date, and all
366 loop dates derived from the 2024 leap reference are valid
(February 29 included). -/
theorem c8_month_day_valid :
    (∀ (item : WDItem) (m d : Nat) (row : Row),
      wikidataRowBody item = .ok (m, d, row) →
      row.month = pad2 m ∧ row.day = pad2 d ∧
      row.month.length = 2 ∧ row.day.length = 2 ∧ validDateLeap m d) ∧
    (∀ (m d : Nat) (ev : OTDEvent) (row : Row),
      onThisDayEventBody m d ev = .ok (some row) →
      row.month = pad2 m ∧ row.day = pad2 d) ∧
    (∀ n, 1 ≤ n → n ≤ 366 →
      validDateLeap (dateOfYearDay2024 n).1 (dateOfYearDay2024 n).2 ∧
      (pad2 (dateOfYearDay2024 n).1).length = 2 ∧
      (pad2 (dateOfYearDay2024 n).2).length = 2) := by
  refine ⟨?_, ?_, ?_⟩
  · intro item m d row h
    obtain ⟨s, y, eventText, _, _, hparse, _, _, hrow⟩ := wikidataRowBody_ok_inv h
    obtain ⟨hy, hm1, hm2, hd1, hd2⟩ := parseIsoDate_some_inv hparse
    have hdle : d ≤ daysInMonth 2024 m := le_trans hd2 (daysInMonth_le_leap y m)
    have hd31 : d ≤ 31 := le_trans hdle (daysInMonth2024_le31 m)
    have hmonth : (pad2 m).length = 2 := pad2_length_two m (by omega) hm1
    have hday : (pad2 d).length = 2 := pad2_length_two d (by omega) hd1
    refine ⟨by rw [hrow], by rw [hrow], by rw [hrow]; exact hmonth,
      by rw [hrow]; exact hday, ?_⟩
    unfold validDateLeap
    exact ⟨hm1, hm2, hd1, hdle⟩
  · intro m d ev row h
    obtain ⟨text, kw, yr, fp, rps, rawTitle, rT, rP, _, _, _, _, _, _, _, _, hrow⟩ :=
      onThisDayEventBody_ok_inv h
    exact ⟨by rw [hrow], by rw [hrow]⟩
  · intro n h1 h2
    have hall : ∀ k, k < 367 → 1 ≤ k →
        validDateLeap (dateOfYearDay2024 k).1 (dateOfYearDay2024 k).2 ∧
        (pad2 (dateOfYearDay2024 k).1).length = 2 ∧
        (pad2 (dateOfYearDay2024 k).2).length = 2 := by decide
    exact hall n (by omega) h1

/-- Witness for C8: the concrete accepted Wikidata row of April 19. -/
theorem c8_month_day_valid_witness :
    wikidataRowBody wdItemOK = .ok (4, 19, wdRowOK) ∧
    (wdRowOK.month = pad2 4 ∧ wdRowOK.day = pad2 19 ∧
      wdRowOK.month.length = 2 ∧ wdRowOK.day.length = 2 ∧ validDateLeap 4 19) :=
  ⟨by decide, c8_month_day_valid.1 wdItemOK 4 19 wdRowOK (by decide)⟩

/-- Claim C9: the export phase writes nothing and reports the
nothing-to-save condition exactly when zero records were accepted; with a
non-empty flat list both artifacts (the sorted table and the sorted
grouped map) are produced. -/
theorem c9_export_empty_guard (rows : List Row) (groups : GroupAcc) :
    (rows = [] → exportPhase rows groups = .nothingToSave) ∧
    (rows ≠ [] → exportPhase rows groups
        = .written (sortRows rows) (sortGroups (groupByLabel groups))) := by
  constructor
  · intro h
    simp [exportPhase, h]
  · intro h
    simp [exportPhase, h]

/-- Witness for C9: empty and non-empty accumulators. -/
theorem c9_export_empty_guard_witness :
    exportPhase [] [] = .nothingToSave ∧
    exportPhase [rowBomb] [] = .written (sortRows [rowBomb]) (sortGroups (groupByLabel [])) :=
  ⟨(c9_export_empty_guard [] []).1 rfl,
   (c9_export_empty_guard [rowBomb] []).2 (by decide)⟩

/-- Claim C6: chronological order of the grouped output keys.  For every
grouped map whose keys all parse as date labels and whose parsed
(month, day) keys are pairwise distinct (the keys of the defaultdict of
the pipeline are distinct canonical labels, and distinct canonical labels
have distinct parses), the sorted key sequence of the exporter, parsed back to
(month, day) pairs, is strictly increasing chronologically — whatever the
lexical order of the label strings. -/
theorem c6_chronological_key_order
    (g : List (String × List (String × Payload)))
    (hparse : ∀ p ∈ g, (parseLabel p.1).isSome = true)
    (hdist : (g.map (fun p => parseLabel p.1)).Pairwise (fun a b => a ≠ b)) :
    ((sortGroups g).map (fun p => (parseLabel p.1).getD (0, 0))).Pairwise pairLT := by
  have hperm := List.perm_insertionSort
    (fun (a b : String × List (String × Payload)) => sortKey a.1 ≤ sortKey b.1) g
  haveI : IsTotal (String × List (String × Payload))
      (fun a b => sortKey a.1 ≤ sortKey b.1) := ⟨fun a b => Nat.le_total _ _⟩
  haveI : IsTrans (String × List (String × Payload))
      (fun a b => sortKey a.1 ≤ sortKey b.1) := ⟨fun a b c hab hbc => le_trans hab hbc⟩
  have hsorted : (sortGroups g).Pairwise (fun a b => sortKey a.1 ≤ sortKey b.1) :=
    List.sorted_insertionSort _ g
  have hdist₀ : g.Pairwise (fun a b => parseLabel a.1 ≠ parseLabel b.1) :=
    List.pairwise_map.mp hdist
  have hdist₁ : (sortGroups g).Pairwise (fun a b => parseLabel a.1 ≠ parseLabel b.1) :=
    (List.Perm.pairwise_iff (fun hxy => hxy.symm) hperm).mpr hdist₀
  have hmem : ∀ p ∈ sortGroups g, (parseLabel p.1).isSome = true :=
    fun p hp => hparse p (hperm.mem_iff.mp hp)
  have hcomb := hsorted.and hdist₁
  have htarget : (sortGroups g).Pairwise
      (fun a b => pairLT ((parseLabel a.1).getD (0, 0)) ((parseLabel b.1).getD (0, 0))) := by
    refine hcomb.imp_of_mem ?_
    intro a b ha hb hab
    obtain ⟨hle, hne⟩ := hab
    obtain ⟨pa, hpa⟩ := Option.isSome_iff_exists.mp (hmem a ha)
    obtain ⟨pb, hpb⟩ := Option.isSome_iff_exists.mp (hmem b hb)
    obtain ⟨ma, da⟩ := pa
    obtain ⟨mb, db⟩ := pb
    obtain ⟨hma1, hma2, hda1, hda2⟩ := parseLabel_some_inv hpa
    obtain ⟨hmb1, hmb2, hdb1, hdb2⟩ := parseLabel_some_inv hpb
    simp only [sortKey, hpa, hpb] at hle
    rw [hpa, hpb] at hne ⊢
    have hne₂ : ¬(ma = mb ∧ da = db) := by
      intro hh
      exact hne (by rw [hh.1, hh.2])
    simp only [Option.getD_some]
    unfold pairLT
    simp only []
    omega
  exact List.pairwise_map.mpr htarget

/-- Witness for C6: three concrete groups whose lexical key order differs
from the chronological order. -/
theorem c6_chronological_key_order_witness :
    (∀ p ∈ ([("March 5", []), ("January 12", []), ("February 3", [])] :
        List (String × List (String × Payload))),
      (parseLabel p.1).isSome = true) ∧
    (([("March 5", []), ("January 12", []), ("February 3", [])] :
        List (String × List (String × Payload))).map
          (fun p => parseLabel p.1)).Pairwise (fun a b => a ≠ b) ∧
    ((sortGroups [("March 5", []), ("January 12", []), ("February 3", [])]).map
        (fun p => (parseLabel p.1).getD (0, 0))).Pairwise pairLT :=
  ⟨by decide, by decide,
   c6_chronological_key_order
     [("March 5", []), ("January 12", []), ("February 3", [])]
     (by decide) (by decide)⟩

end CrimeAnniv
